import Mathlib

/-!
HyperSpace-Service TUN interface: shallow embedding and verification

A shallow embedding of the packet-processing engine of
`HyperSpaceTunnel` (`TUNInterface.cpp`, `LinkedBlockingDeque.hpp`,
`ConcurrentHashMap.hpp` / `HashBucket.hpp`, `ArrayList.hpp`).

Modelling conventions, used uniformly below:

* A byte buffer (`std::vector<uint8_t>`, raw `uint8_t*`) is a `List Nat`;
  in-range bytes are `< 256`.  A read `data[i]` is `bget l i`, which
  returns 0 when `i` is out of bounds.  On the read path this matches the
  C++ exactly (the 2000-byte read buffer is zero-initialised, so reads
  past the received length yield 0); on externally supplied buffers an
  out-of-bounds C++ read is undefined behaviour, and every theorem below
  about such buffers carries in-bounds hypotheses.
* 16-bit header fields are stored in memory byte order: `htons` stores
  big-endian (`store16BE`); a plain `uint16_t` store on the little-endian
  target stores low byte first (`store16LE`); `ntohs` of bytes `i, i+1`
  is `be16 l i`; a `uint32_t` load of an IPv4 address (`s_addr`) is
  `le32 l i`.
* The textual IPv4 addresses held in `knownIPAddresses` are consulted
  only through `inet_aton(s).s_addr`; the known-IP set is therefore
  modelled as the list of those 32-bit values (`List Nat`).
* Mutex / shared-lock acquisitions and the two counting semaphores guard
  cross-thread interleavings only; all traces considered here are the
  single-threaded reactor traces of the claims, on which `wait`/`signal`
  never block, so they are elided.
-/

namespace HyperSpace

/-- Byte read `data[i]`, out-of-bounds modelled as 0 (see header comment). -/
def bget (l : List Nat) (i : Nat) : Nat := l.getD i 0

/-- Byte write `data[i] = v`; a no-op when out of bounds (theorems keep
writes in bounds). -/
def setByte (l : List Nat) (i v : Nat) : List Nat := l.set i v

/-- The byte range `data[i .. i+n)`, as passed by pointer+length to
`computeIPChecksum`. -/
def slice (l : List Nat) (i n : Nat) : List Nat := (l.drop i).take n

/-- Big-endian 16-bit read of the two bytes at `i` (`ntohs`). -/
def be16 (l : List Nat) (i : Nat) : Nat := 256 * bget l i + bget l (i + 1)

/-- Little-endian 32-bit load of bytes `i..i+3`: `in_addr.s_addr` on the
little-endian target. -/
def le32 (l : List Nat) (i : Nat) : Nat :=
  bget l i + 256 * bget l (i + 1) + 65536 * bget l (i + 2) + 16777216 * bget l (i + 3)

/-- Store a 16-bit value big-endian at bytes `i, i+1` (`htons` store). -/
def store16BE (l : List Nat) (i v : Nat) : List Nat :=
  setByte (setByte l i (v / 256 % 256)) (i + 1) (v % 256)

/-- Store a 16-bit value little-endian at bytes `i, i+1` (plain `uint16_t`
store on the little-endian target, used for the checksum fields). -/
def store16LE (l : List Nat) (i v : Nat) : List Nat :=
  setByte (setByte l i (v % 256)) (i + 1) (v / 256 % 256)

/-!
Section: `TUNInterface::computeIPChecksum`

```cpp
uint32_t sum = 0;
const uint16_t* words = reinterpret_cast<const uint16_t*>(data);
while (length > 1) { sum += *words++; length -= 2; }
if (length == 1) { sum += static_cast<uint16_t>(*reinterpret_cast<const uint8_t*>(words) << 8); }
while (sum >> 16) { sum = (sum & 0xFFFF) + (sum >> 16); }
return static_cast<uint16_t>(~sum);
```

`*words` is a little-endian 16-bit load `a + 256*b`; the odd trailing
byte is added as `byte << 8`.  The 32-bit accumulator cannot overflow for
any buffer the engine handles (≤ 2000 bytes, sum ≤ 1000·65535 < 2^32),
so it is modelled as an unbounded sum.
-/

/-- The word-accumulation loops of `computeIPChecksum`. -/
def wordSum : List Nat → Nat
  | [] => 0
  | [b] => b * 256
  | a :: b :: t => (a + 256 * b) + wordSum t

/-- The carry-folding loop `while (sum >> 16) sum = (sum & 0xFFFF) + (sum >> 16)`,
with an explicit structural fuel (the loop strictly decreases `sum`, so
fuel `x` always suffices for start value `x`; see `foldCarry_spec`). -/
def foldCarry : Nat → Nat → Nat
  | 0, x => x
  | fuel + 1, x => if x < 65536 then x else foldCarry fuel (x % 65536 + x / 65536)

/-- The folded 16-bit sum. -/
def foldSum (x : Nat) : Nat := foldCarry x x

/-- Model of `TUNInterface::computeIPChecksum` on a byte range: ones complement of
the folded word sum, truncated to `uint16_t`. -/
def computeIPChecksum (data : List Nat) : Nat :=
  (4294967295 - foldSum (wordSum data)) % 65536

/-!
Section: `LinkedBlockingDeque`

The deque is a singly linked chain of reference-counted nodes starting at
`head`; on construction `head = last =` a fresh sentinel node with a null
item.  A node is modelled by its item slot: `Option (List Nat)`, where
`none` stands both for a null `shared_ptr` item and for an engaged pointer
to `nullopt` (the two are observationally conflated: every reader checks
both).  The state is the chain of nodes reachable from `head`, plus the
`_count` field (`int`, may in principle go negative, hence `Int`).
`last` always equals the final node of the chain in every state reachable
by the operations used on the write queue, so it is not tracked
separately.  The two semaphores only block cross-thread; on the
single-threaded reactor traces below they never wait, so they are elided
(see the header comment).
-/

/-- State of `LinkedBlockingDeque`: the node chain from `head`, and `_count`. -/
structure BDeque where
  chain : List (Option (List Nat))
  count : Int
deriving DecidableEq

/-- A freshly constructed deque: a single sentinel node, count 0. -/
def BDeque.new : BDeque := ⟨[none], 0⟩

/-- Model of `enqueue(node)`: link at `last`, bump `_count` (used by `put`). -/
def BDeque.put (q : BDeque) (e : List Nat) : BDeque :=
  ⟨q.chain ++ [some e], q.count + 1⟩

/-- Model of `putFirst(e)`: `node->next = head; head = node; _count += 1`.  Note the
new node is linked in *before* the sentinel that `dequeue` expects at
`head`. -/
def BDeque.putFirst (q : BDeque) (e : List Nat) : BDeque :=
  ⟨some e :: q.chain, q.count + 1⟩

/-- Model of `dequeue()`: `first = head->next; head = first; x = *(first->item);
first->item = nullptr; _count -= 1`.  When the item slot of `first` is a null
`shared_ptr` the C++ dereference is undefined behaviour; it is modelled as
yielding the empty optional (`none`), the benign reading. -/
def BDeque.dequeue (q : BDeque) : Option (List Nat) × BDeque :=
  match q.chain with
  | [] => (none, ⟨[], q.count - 1⟩)
  | [_] => (none, ⟨[], q.count - 1⟩)
  | _ :: x :: rest => (x, ⟨none :: rest, q.count - 1⟩)

/-- Model of `take()`: wait on `nFilled` (elided), `dequeue`, signal `nHoles`. -/
def BDeque.take (q : BDeque) : Option (List Nat) × BDeque := q.dequeue

/-- Model of `empty()`: `size() == 0`. -/
def BDeque.isEmpty (q : BDeque) : Bool := q.count == 0

/-- The clean-queue invariant: a sentinel at `head` followed by the live
items in FIFO order, with `_count` agreeing.  `put` starting from
`BDeque.new` only produces such states. -/
def BDeque.wf (q : BDeque) (items : List (List Nat)) : Prop :=
  q.chain = none :: items.map some ∧ q.count = items.length

/-- Result of one `write()` call in `TUNInterface::onWrite`. -/
inductive WriteResult where
  | success
  | eagain
  | writeError
deriving DecidableEq

/-- Model of `TUNInterface::onWrite`: drain the write queue.

```cpp
while (!self->writeQueue.empty()) {
    auto optPacket = self->writeQueue.take();
    if (optPacket.has_value()) {
        ssize_t written = write(fd, packet.data(), packet.size());
        if (written < 0) {
            if (errno == EAGAIN || errno == EWOULDBLOCK) {
                self->writeQueue.putFirst(packet); break;
            }
            /* log, discard */
        }
    }
}
```

`outcomes` lists the results of the successive `write()` calls on this
edge (an exhausted list means further writes succeed); the returned list
is the sequence of buffers actually written to the fd.  `fuel` bounds the
loop; every trace below is evaluated with visibly sufficient fuel.  The
disarming of the write event when the queue empties is not modelled (no
claim concerns event arming). -/
def onWriteDrain (fuel : Nat) (outcomes : List WriteResult) (q : BDeque) :
    List (List Nat) × BDeque :=
  match fuel with
  | 0 => ([], q)
  | fuel + 1 =>
    if q.count = 0 then ([], q)
    else
      match q.take with
      | (none, q1) => onWriteDrain fuel outcomes q1
      | (some p, q1) =>
        match outcomes with
        | [] =>
          let r := onWriteDrain fuel [] q1
          (p :: r.1, r.2)
        | .success :: rest =>
          let r := onWriteDrain fuel rest q1
          (p :: r.1, r.2)
        | .eagain :: _ => ([], q1.putFirst p)
        | .writeError :: rest => onWriteDrain fuel rest q1

/-- The 4-byte utun framing header `{0x00, 0x00, 0x00, 0x02}`. -/
def tunHeader : List Nat := [0, 0, 0, 2]

/-- Model of `TUNInterface::enqueueWrite`: drop empty buffers, prepend the framing
header, `put` on the write queue (the re-arming of the write event is not
modelled). -/
def enqueueWrite (q : BDeque) (packet : List Nat) : BDeque :=
  if packet = [] then q else q.put (tunHeader ++ packet)

/-!
Section: The classification engine (`TUNInterface.cpp`)

Externally observable actions of one engine entry point.  `outbound p`
records a call `sendOutgoingPacket(p)` (which invokes the outbound
callback when one is installed, and is a silent drop otherwise);
`enq p` records a call `enqueueWrite(p)`.
-/

/-- Observable action of the engine. -/
inductive Effect where
  | outbound (p : List Nat)
  | enq (p : List Nat)
deriving DecidableEq

/-- Header length `iphdr->ip_hl * 4`: the IHL nibble (low nibble of byte 0 on the
little-endian target) times 4. -/
def ipHeaderLen (p : List Nat) : Nat := bget p 0 % 16 * 4

/-- Total length `ntohs(iphdr->ip_len)`: bytes 2–3 big-endian. -/
def ipTotalLen (p : List Nat) : Nat := be16 p 2

/-- Swap `iphdr->ip_src` (bytes 12–15) and `iphdr->ip_dst` (bytes 16–19),
via the saved temporary as in the source. -/
def swapIPAddrs (l : List Nat) : List Nat :=
  setByte (setByte (setByte (setByte (setByte (setByte (setByte (setByte l
    12 (bget l 16)) 13 (bget l 17)) 14 (bget l 18)) 15 (bget l 19))
    16 (bget l 12)) 17 (bget l 13)) 18 (bget l 14)) 19 (bget l 15)

/-- Swap `uh_sport` (bytes `iHL`–`iHL+1`) and `uh_dport` (bytes
`iHL+2`–`iHL+3`), via the saved temporary as in the source. -/
def swapUDPPorts (l : List Nat) (iHL : Nat) : List Nat :=
  setByte (setByte (setByte (setByte l
    iHL (bget l (iHL + 2))) (iHL + 1) (bget l (iHL + 3)))
    (iHL + 2) (bget l iHL)) (iHL + 3) (bget l (iHL + 1))

/-- The in-place ICMP echo-reply synthesis of `TUNInterface::writePacket`
(lines 233–244): set the ICMP type byte to 0, zero the ICMP checksum,
recompute it over `totalLen - iHL` bytes starting at the ICMP header,
store it (little-endian `uint16_t` store), swap the IPv4 source and
destination addresses, zero the IPv4 checksum and recompute it over the
`iHL` header bytes. -/
def icmpEchoReply (p : List Nat) (iHL totalLen : Nat) : List Nat :=
  let p1 := setByte p iHL 0                                   -- icmp->type = 0
  let p2 := store16LE p1 (iHL + 2) 0                          -- icmp->checksum = 0
  let ck := computeIPChecksum (slice p2 iHL (totalLen - iHL))
  let p3 := store16LE p2 (iHL + 2) ck                         -- icmp->checksum = ck
  let p4 := swapIPAddrs p3
  let p5 := store16LE p4 10 0                                 -- ip_sum = 0
  let ck2 := computeIPChecksum (slice p5 0 iHL)
  store16LE p5 10 ck2                                         -- ip_sum = ck2

/-- Model of `TUNInterface::writePacket`: classify an inbound buffer.  The known-IP
set is the list of the `inet_aton(s).s_addr` values of
`knownIPAddresses` (see the header comment). -/
def writePacket (known : List Nat) (p : List Nat) : List Effect :=
  let iHL := ipHeaderLen p
  if p.length < iHL then []
  else if bget p 9 ≠ 1 then [.enq p]
  else
    let totalLen := ipTotalLen p
    if totalLen < iHL ∨ p.length < totalLen then []
    else if bget p iHL ≠ 8 then [.enq p]
    else if le32 p 12 ∈ known then [.outbound (icmpEchoReply p iHL totalLen)]
    else [.enq p]

/-- Model of `TUNInterface::handleICMPPacket` (read-path ICMP): forward echo
requests addressed to a known IP, drop everything else. -/
def handleICMPPacket (known : List Nat) (p : List Nat) : List Effect :=
  let iHL := ipHeaderLen p
  if bget p iHL = 8 then
    if le32 p 16 ∈ known then [.outbound p] else []
  else []

/-!
Section: `TUNInterface::extractDNSName`

The label-walking `while` loop of one invocation, parameterised by the
pointer-chase continuation `chase` and by a structural fuel.  The loop
strictly advances `offset` while `offset < maxLen`, so `maxLen + 1` fuel
(what `extractName` passes) always suffices.  Names are byte lists
(`std::string`); the label separator dot is byte `46`.
-/

/-- Label loop of one invocation.  Returns (accumulated name, final loop
offset, `jumped`). -/
def extractLoop (payload : List Nat) (maxLen : Nat) (chase : Nat → List Nat) :
    Nat → Nat → List Nat → List Nat × Nat × Bool
  | 0, offset, acc => (acc, offset, false)
  | fuel + 1, offset, acc =>
    if offset < maxLen then
      let len := bget payload offset
      if len &&& 192 = 192 then
        if maxLen ≤ offset + 1 then (acc, offset, false)
        else
          let ptr := (len &&& 63) * 256 + bget payload (offset + 1)
          let pointed := chase ptr
          let acc2 := if acc ≠ [] ∧ pointed ≠ [] then acc ++ 46 :: pointed else acc ++ pointed
          (acc2, offset + 2, true)
      else if len = 0 then (acc, offset + 1, false)
      else if maxLen < offset + 1 + len then (acc, offset + 1, false)
      else
        let lbl := slice payload (offset + 1) len
        extractLoop payload maxLen chase fuel (offset + 1 + len)
          (if acc ≠ [] then acc ++ 46 :: lbl else acc ++ lbl)
    else (acc, offset, false)

/-- Model of `extractDNSName` with the remaining pointer-chase budget
`j = 6 - depth` made structural: `j = 0` is the `depth > 5` early return
(which leaves `endOffset` unassigned, hence `none`; every caller
overwrites it, and the top-level call has `depth = 0`).  At `j + 1` the
loop runs, chasing pointers at budget `j`, and the final
`endOffset = jumped ? originalOffset + 2 : offset` is assigned. -/
def extractName (payload : List Nat) (maxLen : Nat) : Nat → Nat → List Nat × Option Nat
  | 0, _ => ([], none)
  | j + 1, offset =>
    let r := extractLoop payload maxLen
      (fun ptr => (extractName payload maxLen j ptr).1) (maxLen + 1) offset []
    (r.1, some (if r.2.2 then offset + 2 else r.2.1))

/-- Model of `TUNInterface::extractDNSName(payload, offset, maxLen, endOffset, depth)`:
returns (name, assigned `endOffset`). -/
def extractDNSName (payload : List Nat) (offset maxLen depth : Nat) : List Nat × Option Nat :=
  extractName payload maxLen (6 - depth) offset

/-!
Section: DNS response synthesis (`TUNInterface::sendDNSResponse`)
-/

/-- Model of the `questionEnd` label walk common to both response branches:
`questionEnd = 12; while (questionEnd < dnsLength && dns[questionEnd] != 0)
questionEnd += dns[questionEnd] + 1;` with structural fuel (the offset
strictly advances, so `dnsLength + 1` fuel suffices). -/
def questionEndLoop (dns : List Nat) (dnsLength : Nat) : Nat → Nat → Nat
  | 0, q => q
  | fuel + 1, q =>
    if q < dnsLength ∧ bget dns q ≠ 0 then
      questionEndLoop dns dnsLength fuel (q + bget dns q + 1)
    else q

/-- The computed end of the question section: label walk from offset 12,
then `+ 5` (nul byte + QTYPE + QCLASS). -/
def dnsQuestionEnd (dns : List Nat) (dnsLength : Nat) : Nat :=
  questionEndLoop dns dnsLength (dnsLength + 1) 12 + 5

/-- The QTYPE value `sendDNSResponse` dispatches on:
`(dnsStart[dnsLength - 4] << 8) | dnsStart[dnsLength - 3]`. -/
def dnsDispatchQType (dns : List Nat) (dnsLength : Nat) : Nat :=
  bget dns (dnsLength - 4) * 256 + bget dns (dnsLength - 3)

/-- The big-endian 16-bit value at the last four bytes of the *question
section* (offsets `questionEnd - 4`, `questionEnd - 3`), the reading the
specification describes. -/
def dnsQuestionEndQType (dns : List Nat) (dnsLength : Nat) : Nat :=
  bget dns (dnsQuestionEnd dns dnsLength - 4) * 256 +
    bget dns (dnsQuestionEnd dns dnsLength - 3)

/-- The Answer RR appended for A responses: compressed-name pointer
`C0 0C`, TYPE A, CLASS IN, TTL 300, RDLENGTH 4, then the 4 RDATA bytes. -/
def dnsAnswerRR (resolvedIP : List Nat) : List Nat :=
  [192, 12, 0, 1, 0, 1, 0, 0, 1, 44, 0, 4] ++ resolvedIP

/-- Model of `TUNInterface::sendDNSResponse(packet, length, resolvedIP)`: builds the
response buffer handed to `enqueueWrite`, or `none` when no response is
sent.  `resolvedIP` is the 4-byte `inet_aton` value of the answer string.
`dnsLength = length - ipHeaderLen - 8` is `size_t` arithmetic, modelled
with the `2^64` wrap.  `uh_ulen = htons(totalLen - ipHeaderLen)` also
wraps; since `ipHeaderLen < 65536` the `2^64` wrap agrees with a `2^16`
wrap after the `htons` truncation, which is how it is written here. -/
def sendDNSResponse (p : List Nat) (resolvedIP : List Nat) : Option (List Nat) :=
  if p.length < 20 then none
  else if bget p 9 ≠ 17 then none
  else
    let iHL := ipHeaderLen p
    let dnsLength := (p.length + 18446744073709551616 - iHL - 8) % 18446744073709551616
    if dnsLength < 12 then none
    else
      let dns := p.drop (iHL + 8)
      let qtype := dnsDispatchQType dns dnsLength
      if qtype = 28 ∨ qtype = 65 then
        -- empty response (AAAA / HTTPS): ANCOUNT = 0
        let r1 := setByte (setByte p (iHL + 8 + 2) 129) (iHL + 8 + 3) 128
        let r2 := setByte (setByte r1 (iHL + 8 + 6) 0) (iHL + 8 + 7) 0
        let qEnd := dnsQuestionEnd (r2.drop (iHL + 8)) dnsLength
        let r3 := r2.take (iHL + 8 + qEnd)
        let r4 := swapUDPPorts (swapIPAddrs r3) iHL
        let totalLen := r4.length % 65536
        let r5 := store16BE r4 2 totalLen
        let r6 := store16LE r5 10 0
        let r7 := store16LE r6 10 (computeIPChecksum (slice r6 0 iHL))
        let r8 := store16BE r7 (iHL + 4) ((totalLen + 65536 - iHL) % 65536)
        let r9 := store16LE r8 (iHL + 6) 0
        some r9
      else if qtype ≠ 1 then none
      else
        -- single-answer A response: ANCOUNT = 1, Answer RR appended
        let r1 := setByte (setByte p (iHL + 8 + 2) 129) (iHL + 8 + 3) 128
        let r2 := setByte (setByte r1 (iHL + 8 + 6) 0) (iHL + 8 + 7) 1
        let qEnd := dnsQuestionEnd (r2.drop (iHL + 8)) dnsLength
        let r3 := r2.take (iHL + 8 + qEnd) ++ dnsAnswerRR resolvedIP
        let r4 := swapUDPPorts (swapIPAddrs r3) iHL
        let totalLen := r4.length % 65536
        let r5 := store16BE r4 2 totalLen
        let r6 := store16LE r5 10 0
        let r7 := store16LE r6 10 (computeIPChecksum (slice r6 0 iHL))
        let r8 := store16BE r7 (iHL + 4) ((totalLen + 65536 - iHL) % 65536)
        let r9 := store16LE r8 (iHL + 6) 0
        some r9

/-- Model of `TUNInterface::isDNSQuery`: returns the classification result together
with the effects produced (`sendDNSResponse` calls `enqueueWrite` for each
matching DNS-map entry).  The DNS map is consulted here only as a set of
entries (parsed answer address, hostname list); keys whose `inet_aton`
fails produce no response and are simply absent from `entries` (see the
header comment). -/
def isDNSQuery (entries : List (List Nat × List (List Nat))) (p : List Nat) :
    Bool × List Effect :=
  if bget p 0 / 16 ≠ 4 ∨ bget p 9 ≠ 17 then (false, [])
  else
    let iHL := ipHeaderLen p
    if p.length < iHL + 8 then (false, [])
    else if be16 p (iHL + 2) ≠ 53 then (false, [])
    else
      let dnsLen := p.length - iHL - 8
      if dnsLen < 12 then (false, [])
      else
        let dnsStart := p.drop (iHL + 8)
        let r := extractDNSName dnsStart 12 dnsLen 0
        let nameEnd := r.2.getD 0
        if dnsLen < nameEnd + 4 then (false, [])
        else
          (true, entries.filterMap fun e =>
            if r.1 ∈ e.2 then (sendDNSResponse p e.1).map Effect.enq else none)

/-- Model of `TUNInterface::onRead` on a successful `read()` returning the bytes
`data` (`len = data.length > 0`; the 2000-byte buffer is zero-filled, so
reads past `len` yield 0, exactly the `bget` convention). -/
def onRead (known : List Nat) (entries : List (List Nat × List (List Nat)))
    (data : List Nat) : List Effect :=
  if data.length = 0 then []
  else
    let p := if 4 ≤ data.length then data.drop 4 else data
    if bget p 9 = 1 then handleICMPPacket known p
    else
      let r := isDNSQuery entries p
      if r.1 then r.2 else r.2 ++ [.outbound p]

/-- Apply a list of effects to the write queue (`enq p` is a call to
`enqueueWrite`; `outbound` does not touch the queue). -/
def applyEffects (q : BDeque) (effs : List Effect) : BDeque :=
  effs.foldl (fun q e => match e with | .enq p => enqueueWrite q p | .outbound _ => q) q

/-!
Section: The DNS configuration map (`ConcurrentHashMap` + `ArrayList`)

`get` returns a *copy* of the stored `ArrayList` wrapped in
`std::optional` (its own comment: "For C++ gets a copy of the object");
`ArrayList` holds its `std::vector` by value, so the copy shares no
storage with the map.  Sharding (`hash(key) % hashSize`) routes each key
to a fixed bucket holding a `std::unordered_map`, so per-key behaviour is
that of an association map, which is how it is modelled.
-/

/-- Model of `ConcurrentHashMap::get`. -/
def mapGet (m : List (String × List String)) (k : String) : Option (List String) :=
  (m.find? (fun e => e.1 == k)).map (fun e => e.2)

/-- Model of `ConcurrentHashMap::put` (via `HashBucket::put`: `myMap[key] = value`). -/
def mapPut (m : List (String × List String)) (k : String) (v : List String) :
    List (String × List String) :=
  if (m.find? (fun e => e.1 == k)).isSome
  then m.map (fun e => if e.1 == k then (k, v) else e)
  else m ++ [(k, v)]

/-- Model of `TUNInterface::addDNSEntry`:

```cpp
auto values = dnsMap.get(ipAddress);
if (values.has_value()) {
    auto list = values.value();
    if (!list.contains(hostName)) { list.add(hostName); }
} else {
    auto list = ArrayList<std::string>(); list.add(hostName);
    dnsMap.put(ipAddress, list);
}
```

In the `has_value` branch, `list` is a local copy of the list returned by
`get` (value semantics); `list.add` mutates only that copy and the map is
never written, so the branch leaves the map unchanged. -/
def addDNSEntry (m : List (String × List String)) (ipAddress hostName : String) :
    List (String × List String) :=
  match mapGet m ipAddress with
  | some _values => m
  | none => mapPut m ipAddress [hostName]

/-!
Section: Concrete test vectors

Small literal packets used to instantiate the theorems (IHL = 5
throughout, as in the scenarios of the specification).
-/

/-- A 20-byte TCP/IPv4 header (protocol 6): classified "enqueue" by
`writePacket`. -/
def tcpPkt : List Nat :=
  [69, 0, 0, 20, 0, 0, 0, 0, 64, 6, 0, 0, 10, 0, 0, 1, 10, 0, 0, 2]

/-- A 28-byte ICMP echo request, source `10.0.0.1`, destination
`10.0.0.2`. -/
def echoReqPkt : List Nat :=
  [69, 0, 0, 28, 0, 0, 0, 0, 64, 1, 0, 0, 10, 0, 0, 1, 10, 0, 0, 2,
   8, 0, 0, 0, 0, 1, 0, 1]

/-- An ICMP packet whose IPv4 total-length field (99) exceeds the 28-byte
buffer. -/
def badLenIcmpPkt : List Nat :=
  [69, 0, 0, 99, 0, 0, 0, 0, 64, 1, 0, 0, 10, 0, 0, 1, 10, 0, 0, 2,
   8, 0, 0, 0, 0, 1, 0, 1]

/-- A 51-byte UDP/53 datagram: DNS question `QNAME = "a"`, `QTYPE = 1`,
`QCLASS = 1`, followed by 4 trailing bytes `00 1C 00 00` after the
question section (so the question is *not* the last structure; DNS payload
length 23, question ends at payload offset 19). -/
def dnsPktC4 : List Nat :=
  [69, 0, 0, 51, 0, 0, 0, 0, 64, 17, 0, 0, 10, 0, 0, 1, 10, 0, 0, 2] ++
  [192, 0, 0, 53, 0, 31, 0, 0] ++
  [18, 52, 1, 0, 0, 1, 0, 0, 0, 0, 0, 0] ++
  [1, 97, 0] ++ [0, 1] ++ [0, 1] ++
  [0, 28, 0, 0]

/-- The same query with the question section last (47 bytes, DNS payload
length 19). -/
def dnsPktA : List Nat :=
  [69, 0, 0, 47, 0, 0, 0, 0, 64, 17, 0, 0, 10, 0, 0, 1, 10, 0, 0, 2] ++
  [192, 0, 0, 53, 0, 27, 0, 0] ++
  [18, 52, 1, 0, 0, 1, 0, 0, 0, 0, 0, 0] ++
  [1, 97, 0] ++ [0, 1] ++ [0, 1]

/-- A DNS payload whose QNAME at offset 12 is a compression pointer to
offset 12: a pointer cycle. -/
def cycPayload : List Nat := [0, 0, 0, 0, 0, 0, 0, 0, 0, 0, 0, 0, 192, 12, 0, 0]

/-! Section: basic facts about the checksum -/

theorem foldCarry_spec (fuel : Nat) : ∀ x : Nat, x ≤ fuel →
    foldCarry fuel x < 65536 ∧ foldCarry fuel x % 65535 = x % 65535 ∧
    foldCarry fuel x ≤ x ∧ (0 < x → 0 < foldCarry fuel x) := by
  induction fuel with
  | zero =>
    intro x hx
    have : x = 0 := Nat.le_zero.mp hx
    subst this
    exact ⟨by decide, rfl, Nat.le_refl _, fun h => h⟩
  | succ fuel ih =>
    intro x hx
    by_cases h : x < 65536
    · have hfc : foldCarry (fuel + 1) x = x := by
        simp [foldCarry, if_pos h]
      rw [hfc]
      exact ⟨h, rfl, Nat.le_refl x, fun hp => hp⟩
    · have hfc : foldCarry (fuel + 1) x = foldCarry fuel (x % 65536 + x / 65536) := by
        simp [foldCarry, if_neg h]
      rw [hfc]
      have hnext : x % 65536 + x / 65536 ≤ fuel := by omega
      obtain ⟨h1, h2, h3, h4⟩ := ih (x % 65536 + x / 65536) hnext
      refine ⟨h1, ?_, by omega, fun _ => h4 (by omega)⟩
      omega

theorem foldSum_spec (x : Nat) :
    foldSum x < 65536 ∧ foldSum x % 65535 = x % 65535 ∧
    foldSum x ≤ x ∧ (0 < x → 0 < foldSum x) :=
  foldCarry_spec x x (Nat.le_refl x)

theorem computeIPChecksum_eq (data : List Nat) :
    computeIPChecksum data = 65535 - foldSum (wordSum data) := by
  have h := (foldSum_spec (wordSum data)).1
  unfold computeIPChecksum
  omega

theorem computeIPChecksum_lt (data : List Nat) : computeIPChecksum data < 65536 := by
  unfold computeIPChecksum
  exact Nat.mod_lt _ (by norm_num)

/-- Lemma: `wordSum` splits across an even-length front segment (the words of the
concatenation are the words of the parts). -/
theorem wordSum_append (l1 l2 : List Nat) (h : l1.length % 2 = 0) :
    wordSum (l1 ++ l2) = wordSum l1 + wordSum l2 := by
  induction l1 using wordSum.induct with
  | case1 => simp [wordSum]
  | case2 b => simp at h
  | case3 a b t ih =>
    simp only [List.length_cons] at h
    simp only [List.cons_append, wordSum, List.append_eq]
    rw [ih (by omega)]
    omega

/-- Writing a 16-bit value over a zeroed aligned word adds that value to
`wordSum`. -/
theorem wordSum_store16LE (l : List Nat) (i v : Nat) (hi : i % 2 = 0)
    (hlen : i + 1 < l.length) (h0 : bget l i = 0) (h1 : bget l (i + 1) = 0)
    (hv : v < 65536) :
    wordSum (store16LE l i v) = wordSum l + v := by
  induction l using wordSum.induct generalizing i with
  | case1 => simp at hlen
  | case2 b =>
    simp only [List.length_cons, List.length_nil] at hlen
    omega
  | case3 a b t ih =>
    rcases i with _ | _ | k
    · have ha : a = 0 := by simpa [bget, List.getD_cons_zero] using h0
      have hb : b = 0 := by
        simpa [bget, List.getD_cons_succ, List.getD_cons_zero] using h1
      subst ha hb
      simp only [store16LE, setByte, List.set_cons_zero, List.set_cons_succ, wordSum]
      omega
    · omega
    · have hk2 : k % 2 = 0 := by omega
      simp only [List.length_cons] at hlen
      have hlen2 : k + 1 < t.length := by omega
      have h0t : bget t k = 0 := by
        simpa [bget, List.getD_cons_succ] using h0
      have h1t : bget t (k + 1) = 0 := by
        simpa [bget, List.getD_cons_succ] using h1
      have hstep := ih k hk2 hlen2 h0t h1t
      simp only [store16LE, setByte] at hstep ⊢
      simp only [List.set_cons_succ, wordSum]
      omega

/--
Claim C6. For every IPv4 header `H` of even length (`4k` bytes, as the claim
states) whose checksum field (bytes 10–11) is zero, inserting the computed
checksum `C = computeIPChecksum H` into the checksum field (the
little-endian `uint16_t` store `ip_sum = C`) and recomputing the checksum
over the resulting header yields 0.
-/
theorem checksum_roundtrip_zero (H : List Nat) (k : Nat)
    (hlen4 : H.length = 4 * k) (hlen : 12 ≤ H.length)
    (hbytes : ∀ b ∈ H, b < 256)
    (h10 : bget H 10 = 0) (h11 : bget H 11 = 0) :
    computeIPChecksum (store16LE H 10 (computeIPChecksum H)) = 0 := by
  set C := computeIPChecksum H with hC
  have hClt : C < 65536 := computeIPChecksum_lt H
  have hsum : wordSum (store16LE H 10 C) = wordSum H + C :=
    wordSum_store16LE H 10 C (by norm_num) (by omega) h10 h11 hClt
  set S := wordSum H with hS
  obtain ⟨hf1, hf2, hf3, hf4⟩ := foldSum_spec S
  have hCval : C = 65535 - foldSum S := by
    rw [hC, computeIPChecksum_eq]
  -- the new folded sum is exactly 0xFFFF
  have hy : foldSum (S + C) = 65535 := by
    obtain ⟨hg1, hg2, hg3, hg4⟩ := foldSum_spec (S + C)
    have hypos : 0 < S + C := by omega
    have hymod : (S + C) % 65535 = 0 := by omega
    have := hg4 hypos
    omega
  rw [computeIPChecksum_eq, hsum, hy]

/-- Claim C6 witness: The round-trip theorem at a concrete 20-byte header. -/
theorem checksum_roundtrip_zero_witness :
    tcpPkt.length = 4 * 5 ∧ 12 ≤ tcpPkt.length ∧ (∀ b ∈ tcpPkt, b < 256) ∧
      bget tcpPkt 10 = 0 ∧ bget tcpPkt 11 = 0 ∧
      computeIPChecksum (store16LE tcpPkt 10 (computeIPChecksum tcpPkt)) = 0 :=
  ⟨by decide, by decide, by decide, by decide, by decide,
    checksum_roundtrip_zero tcpPkt 5 (by decide) (by decide) (by decide)
      (by decide) (by decide)⟩

/-! Section: byte-level helper lemmas -/

theorem bget_eq_getElem? (l : List Nat) (i : Nat) : bget l i = (l[i]?).getD 0 :=
  List.getD_eq_getElem?_getD l i 0

theorem length_setByte (l : List Nat) (i v : Nat) : (setByte l i v).length = l.length :=
  List.length_set l i v

theorem bget_setByte_ne (l : List Nat) (i j v : Nat) (h : i ≠ j) :
    bget (setByte l i v) j = bget l j := by
  simp [bget_eq_getElem?, setByte, List.getElem?_set_ne h]

theorem bget_setByte_eq (l : List Nat) (i v : Nat) (h : i < l.length) :
    bget (setByte l i v) i = v := by
  simp [bget_eq_getElem?, setByte, List.getElem?_set_eq h]

theorem length_store16LE (l : List Nat) (i v : Nat) : (store16LE l i v).length = l.length := by
  simp [store16LE, length_setByte]

theorem bget_store16LE_ne (l : List Nat) (i j v : Nat) (h1 : i ≠ j) (h2 : i + 1 ≠ j) :
    bget (store16LE l i v) j = bget l j := by
  rw [store16LE, bget_setByte_ne _ _ _ _ h2, bget_setByte_ne _ _ _ _ h1]

theorem bget_store16LE_lo (l : List Nat) (i v : Nat) (h : i < l.length) :
    bget (store16LE l i v) i = v % 256 := by
  rw [store16LE, bget_setByte_ne _ _ _ _ (by omega), bget_setByte_eq _ _ _ h]

theorem bget_store16LE_hi (l : List Nat) (i v : Nat) (h : i + 1 < l.length) :
    bget (store16LE l i v) (i + 1) = v / 256 % 256 := by
  rw [store16LE, bget_setByte_eq]
  rw [length_setByte]
  exact h

theorem length_swapIPAddrs (l : List Nat) : (swapIPAddrs l).length = l.length := by
  simp [swapIPAddrs, length_setByte]

theorem bget_swapIPAddrs_ne (l : List Nat) (j : Nat) (h : j < 12 ∨ 19 < j) :
    bget (swapIPAddrs l) j = bget l j := by
  unfold swapIPAddrs
  rw [bget_setByte_ne _ _ _ _ (by omega), bget_setByte_ne _ _ _ _ (by omega),
    bget_setByte_ne _ _ _ _ (by omega), bget_setByte_ne _ _ _ _ (by omega),
    bget_setByte_ne _ _ _ _ (by omega), bget_setByte_ne _ _ _ _ (by omega),
    bget_setByte_ne _ _ _ _ (by omega), bget_setByte_ne _ _ _ _ (by omega)]

theorem bget_swapIPAddrs_src (l : List Nat) (k : Nat) (hk : k < 4) (hl : 20 ≤ l.length) :
    bget (swapIPAddrs l) (12 + k) = bget l (16 + k) := by
  unfold swapIPAddrs
  interval_cases k
  · rw [bget_setByte_ne _ _ _ _ (by omega), bget_setByte_ne _ _ _ _ (by omega),
      bget_setByte_ne _ _ _ _ (by omega), bget_setByte_ne _ _ _ _ (by omega),
      bget_setByte_ne _ _ _ _ (by omega), bget_setByte_ne _ _ _ _ (by omega),
      bget_setByte_ne _ _ _ _ (by omega), bget_setByte_eq _ _ _ (by omega)]
  · rw [bget_setByte_ne _ _ _ _ (by omega), bget_setByte_ne _ _ _ _ (by omega),
      bget_setByte_ne _ _ _ _ (by omega), bget_setByte_ne _ _ _ _ (by omega),
      bget_setByte_ne _ _ _ _ (by omega), bget_setByte_ne _ _ _ _ (by omega),
      bget_setByte_eq _ _ _ (by simp only [length_setByte]; omega)]
  · rw [bget_setByte_ne _ _ _ _ (by omega), bget_setByte_ne _ _ _ _ (by omega),
      bget_setByte_ne _ _ _ _ (by omega), bget_setByte_ne _ _ _ _ (by omega),
      bget_setByte_ne _ _ _ _ (by omega),
      bget_setByte_eq _ _ _ (by simp only [length_setByte]; omega)]
  · rw [bget_setByte_ne _ _ _ _ (by omega), bget_setByte_ne _ _ _ _ (by omega),
      bget_setByte_ne _ _ _ _ (by omega), bget_setByte_ne _ _ _ _ (by omega),
      bget_setByte_eq _ _ _ (by simp only [length_setByte]; omega)]

theorem bget_swapIPAddrs_dst (l : List Nat) (k : Nat) (hk : k < 4) (hl : 20 ≤ l.length) :
    bget (swapIPAddrs l) (16 + k) = bget l (12 + k) := by
  unfold swapIPAddrs
  interval_cases k
  · rw [bget_setByte_ne _ _ _ _ (by omega), bget_setByte_ne _ _ _ _ (by omega),
      bget_setByte_ne _ _ _ _ (by omega),
      bget_setByte_eq _ _ _ (by simp only [length_setByte]; omega)]
  · rw [bget_setByte_ne _ _ _ _ (by omega), bget_setByte_ne _ _ _ _ (by omega),
      bget_setByte_eq _ _ _ (by simp only [length_setByte]; omega)]
  · rw [bget_setByte_ne _ _ _ _ (by omega),
      bget_setByte_eq _ _ _ (by simp only [length_setByte]; omega)]
  · rw [bget_setByte_eq _ _ _ (by simp only [length_setByte]; omega)]

theorem length_slice (l : List Nat) (a n : Nat) :
    (slice l a n).length = min n (l.length - a) := by
  simp [slice]

theorem bget_slice (l : List Nat) (a n i : Nat) (h : i < n) :
    bget (slice l a n) i = bget l (a + i) := by
  simp [bget_eq_getElem?, slice, List.getElem?_take, h, List.getElem?_drop]

theorem ext_bget (l1 l2 : List Nat) (hlen : l1.length = l2.length)
    (h : ∀ i, i < l1.length → bget l1 i = bget l2 i) : l1 = l2 := by
  apply List.ext_getElem hlen
  intro i h1 h2
  have := h i h1
  rwa [bget_eq_getElem?, bget_eq_getElem?, List.getElem?_eq_getElem h1,
    List.getElem?_eq_getElem h2, Option.getD_some, Option.getD_some] at this

/-! Section: write-queue lemmas -/

/-- On a clean queue (`BDeque.wf`) an all-success write edge writes exactly
the queued items in FIFO order and leaves the fresh empty queue. -/
theorem onWriteDrain_success (items : List (List Nat)) (q : BDeque) (hwf : q.wf items) :
    onWriteDrain (items.length + 1) [] q = (items, BDeque.new) := by
  induction items generalizing q with
  | nil =>
    obtain ⟨hc, hn⟩ := hwf
    simp only [List.map_nil] at hc
    simp only [List.length_nil] at hn
    cases q
    simp_all [onWriteDrain, BDeque.new]
  | cons x t ih =>
    obtain ⟨hc, hn⟩ := hwf
    simp only [List.map_cons] at hc
    simp only [List.length_cons] at hn
    have hcount : ¬ q.count = 0 := by rw [hn]; omega
    have htake : q.take = (some x, ⟨none :: t.map some, q.count - 1⟩) := by
      simp [BDeque.take, BDeque.dequeue, hc]
    have hwf2 : (BDeque.mk (none :: t.map some) (q.count - 1)).wf t := by
      constructor
      · rfl
      · show q.count - 1 = (t.length : Int)
        rw [hn]; push_cast; ring
    have hrec := ih _ hwf2
    show onWriteDrain (t.length + 1 + 1) [] q = (x :: t, BDeque.new)
    rw [onWriteDrain]
    simp only [if_neg hcount, htake, hrec]

/--
Claim C1. (Evaluation of the code at the failing input.)  With `P1` then
`P2` enqueued and the first `write()` failing with EAGAIN, the claim says
the sequence written on the next write edge begins with `P1` then `P2`.
The code instead loses `P1`: `putFirst` links the retried node in *front*
of the sentinel node that `dequeue` treats as `head`, so on the next edge
the first `take()` discards the node holding `P1` and reads the previous
null item of the sentinel (undefined behaviour in the C++, modelled as the
empty optional), and only `P2` is ever written.
-/
theorem eagainRetry_drops_packet :
    (onWriteDrain 10 [WriteResult.eagain]
        ((BDeque.new.put [0, 0, 0, 2, 1]).put [0, 0, 0, 2, 2])).1 = [] ∧
    (onWriteDrain 10 []
        (onWriteDrain 10 [WriteResult.eagain]
          ((BDeque.new.put [0, 0, 0, 2, 1]).put [0, 0, 0, 2, 2])).2).1
      = [[0, 0, 0, 2, 2]] ∧
    ([0, 0, 0, 2, 1] : List Nat) ≠ [0, 0, 0, 2, 2] := by
  refine ⟨by decide, by decide, by decide⟩

/--
Claim C7. For every byte sequence `B` submitted through `writePacket` whose
classification yields "enqueue", the byte sequence written to the utun fd
for that packet is exactly the 4 bytes `00 00 00 02` followed by `B`:
starting from any clean queue holding `items`, applying the classification
effects and draining on a write edge with no write failures writes the
prior items followed by exactly `tunHeader ++ B`.  (`B ≠ []` is implicit
in "classification yields enqueue": classifying an empty buffer
dereferences the data pointer of an empty vector in the C++.)
-/
theorem framing_round_trip (known B : List Nat) (q : BDeque) (items : List (List Nat))
    (hclass : writePacket known B = [Effect.enq B]) (hB : B ≠ [])
    (hwf : q.wf items) :
    (onWriteDrain (items.length + 2) [] (applyEffects q (writePacket known B))).1
      = items ++ [tunHeader ++ B] := by
  rw [hclass]
  have happ : applyEffects q [Effect.enq B] = q.put (tunHeader ++ B) := by
    simp [applyEffects, enqueueWrite, hB]
  rw [happ]
  have hwf2 : (q.put (tunHeader ++ B)).wf (items ++ [tunHeader ++ B]) := by
    obtain ⟨hc, hn⟩ := hwf
    constructor
    · simp [BDeque.put, hc]
    · simp [BDeque.put, hn]
  have hdrain := onWriteDrain_success (items ++ [tunHeader ++ B]) _ hwf2
  have hlen : (items ++ [tunHeader ++ B]).length + 1 = items.length + 2 := by simp
  rw [← hlen, hdrain]

/-- Claim C7 witness: The round trip at a concrete TCP packet on the empty
queue. -/
theorem framing_round_trip_witness :
    writePacket [] tcpPkt = [Effect.enq tcpPkt] ∧ tcpPkt ≠ [] ∧
      BDeque.new.wf [] ∧
      (onWriteDrain 2 [] (applyEffects BDeque.new (writePacket [] tcpPkt))).1
        = [tunHeader ++ tcpPkt] :=
  ⟨by decide, by decide, ⟨rfl, rfl⟩,
    framing_round_trip [] tcpPkt BDeque.new [] (by decide) (by decide) ⟨rfl, rfl⟩⟩

/--
Claim C10. `writePacket` guards: a buffer shorter than the IPv4 header
length encoded in its IHL field, or an ICMP packet whose total-length
field is smaller than the header length or larger than the buffer, is
dropped with no effect: nothing is enqueued and the outbound callback is
not invoked.
-/
theorem writePacket_malformed_noop (known p : List Nat) :
    (p.length < ipHeaderLen p → writePacket known p = []) ∧
    (bget p 9 = 1 → ipHeaderLen p ≤ p.length →
      (ipTotalLen p < ipHeaderLen p ∨ p.length < ipTotalLen p) →
      writePacket known p = []) := by
  constructor
  · intro h
    simp only [writePacket, if_pos h]
  · intro h9 hlen htl
    have h1 : ¬ p.length < ipHeaderLen p := by omega
    simp only [writePacket, if_neg h1]
    rw [if_neg (by simp [h9]), if_pos htl]

/-- Claim C10 witness: Both guard branches at concrete inputs: a 1-byte
buffer with IHL = 5, and an ICMP packet with total length 99 in a 28-byte
buffer. -/
theorem writePacket_malformed_noop_witness :
    (([69] : List Nat).length < ipHeaderLen [69] ∧ writePacket [] [69] = []) ∧
    (bget badLenIcmpPkt 9 = 1 ∧ ipHeaderLen badLenIcmpPkt ≤ badLenIcmpPkt.length ∧
      (ipTotalLen badLenIcmpPkt < ipHeaderLen badLenIcmpPkt ∨
        badLenIcmpPkt.length < ipTotalLen badLenIcmpPkt) ∧
      writePacket [] badLenIcmpPkt = []) :=
  ⟨⟨by decide, (writePacket_malformed_noop [] [69]).1 (by decide)⟩,
   ⟨by decide, by decide, Or.inr (by decide),
     (writePacket_malformed_noop [] badLenIcmpPkt).2 (by decide) (by decide)
       (Or.inr (by decide))⟩⟩

/--
Claim C3 counterexample. The claim says a read of `n` bytes with
`0 < n < 4` is silently dropped (no outbound callback, no enqueue, no
reply).  Evaluating the read path on the 1-byte read `[0x45]` shows the
outbound callback *is* invoked, with the unstripped 1-byte buffer: there
is no drop path for short reads in `onRead`.
-/
theorem shortRead_not_dropped_cex :
    onRead [] [] [69] = [Effect.outbound [69]] := by decide

/--
Claim C3, amended. For every read of `n` bytes with `0 < n < 4`, the
packet is *not* dropped: the buffer is forwarded, unstripped, to the
outbound callback (nothing is enqueued and no reply is synthesized,
because the protocol byte read past the buffer is 0, so the packet is
classified neither ICMP nor DNS).
-/
theorem shortRead_forwarded (known : List Nat) (entries : List (List Nat × List (List Nat)))
    (data : List Nat) (h1 : 0 < data.length) (h2 : data.length < 4) :
    onRead known entries data = [Effect.outbound data] := by
  have h9 : bget data 9 = 0 := by
    rw [bget_eq_getElem?, List.getElem?_eq_none (by omega)]
    rfl
  have h0 : ¬ data.length = 0 := by omega
  have h4 : ¬ 4 ≤ data.length := by omega
  simp only [onRead, if_neg h0, if_neg h4]
  rw [if_neg (by simp [h9])]
  have hq : isDNSQuery entries data = (false, []) := by
    simp only [isDNSQuery]
    rw [if_pos (Or.inr (by simp [h9]))]
  rw [hq]
  rfl

/-- Claim C3 witness: The amended statement at the concrete 1-byte read. -/
theorem shortRead_forwarded_witness :
    0 < ([69] : List Nat).length ∧ ([69] : List Nat).length < 4 ∧
      onRead [] [] [69] = [Effect.outbound [69]] :=
  ⟨by decide, by decide, shortRead_forwarded [] [] [69] (by decide) (by decide)⟩

/--
Claim C8. Every ICMP packet arriving on the read path (protocol byte 1
after stripping the 4-byte framing) is routed to `handleICMPPacket`,
which forwards it unmodified to the outbound callback exactly when it is
a type-8 echo request whose destination address is in the known-IP set,
and otherwise produces nothing: no callback invocation and no enqueue.
-/
theorem readPath_icmp (known : List Nat) (entries : List (List Nat × List (List Nat)))
    (data : List Nat) (hlen : 4 ≤ data.length)
    (hicmp : bget (data.drop 4) 9 = 1) :
    onRead known entries data = handleICMPPacket known (data.drop 4) ∧
    handleICMPPacket known (data.drop 4) =
      (if bget (data.drop 4) (ipHeaderLen (data.drop 4)) = 8 ∧
          le32 (data.drop 4) 16 ∈ known
        then [Effect.outbound (data.drop 4)] else []) := by
  constructor
  · have h0 : ¬ data.length = 0 := by omega
    simp only [onRead, if_neg h0, if_pos hlen, if_pos hicmp]
  · unfold handleICMPPacket
    by_cases h8 : bget (data.drop 4) (ipHeaderLen (data.drop 4)) = 8
    · by_cases hk : le32 (data.drop 4) 16 ∈ known
      · simp [h8, hk]
      · simp [h8, hk]
    · simp [h8]

/-- Claim C8 witness: A framed echo request to a known destination on the
read path. -/
theorem readPath_icmp_witness :
    4 ≤ ([9, 9, 9, 9] ++ echoReqPkt).length ∧
    bget (([9, 9, 9, 9] ++ echoReqPkt).drop 4) 9 = 1 ∧
    onRead [le32 echoReqPkt 16] [] ([9, 9, 9, 9] ++ echoReqPkt)
      = handleICMPPacket [le32 echoReqPkt 16] (([9, 9, 9, 9] ++ echoReqPkt).drop 4) :=
  ⟨by decide, by decide,
    (readPath_icmp [le32 echoReqPkt 16] [] ([9, 9, 9, 9] ++ echoReqPkt)
      (by decide) (by decide)).1⟩

/--
Claim C9. `extractDNSName` terminates on every payload, including payloads
with compression-pointer cycles, and its pointer-chase recursion is cut
off at depth 5: every call at depth greater than 5 returns immediately
(empty name, `endOffset` left unassigned), while every call at depth at
most 5 — in particular the top-level call at depth 0 — runs to completion
and assigns `endOffset`.  (The model is total by construction: the label
loop strictly advances its offset below `maxLen`, and the pointer chase
is structural in the remaining depth budget `6 - depth`.)
-/
theorem extractDNSName_depth_guard (payload : List Nat) (offset maxLen depth : Nat) :
    (5 < depth → extractDNSName payload offset maxLen depth = ([], none)) ∧
    (depth ≤ 5 → (extractDNSName payload offset maxLen depth).2.isSome = true) := by
  constructor
  · intro h
    unfold extractDNSName
    rw [show 6 - depth = 0 from by omega]
    rfl
  · intro h
    obtain ⟨j, hj⟩ : ∃ j, 6 - depth = j + 1 := ⟨5 - depth, by omega⟩
    unfold extractDNSName
    rw [hj]
    rfl

/-- Claim C9 witness: On a payload whose QNAME is a compression pointer to
itself (a cycle), the depth-6 call returns immediately and the top-level
depth-0 extraction still terminates with an assigned end offset. -/
theorem extractDNSName_depth_guard_witness :
    (5 < 6 ∧ extractDNSName cycPayload 12 16 6 = ([], none)) ∧
    (0 ≤ 5 ∧ (extractDNSName cycPayload 12 16 0).2.isSome = true) :=
  ⟨⟨by decide, (extractDNSName_depth_guard cycPayload 12 16 6).1 (by decide)⟩,
   ⟨by decide, (extractDNSName_depth_guard cycPayload 12 16 0).2 (by decide)⟩⟩

/--
Claim C2. (Evaluation of the code at the failing input.)  The claim says
that after `addDNSEntry(ip, host)` the host is present in the list mapped
at `ip` (created if absent).  The creation path works, but when `ip` is
already present the code mutates only the local copy returned by
`ConcurrentHashMap::get` and never writes the map: adding a second
hostname under an existing address leaves the map unchanged and the new
hostname absent.
-/
theorem addDNSEntry_existing_key_unchanged :
    addDNSEntry [("10.0.0.7", ["a.local"])] "10.0.0.7" "b.local"
        = [("10.0.0.7", ["a.local"])] ∧
    "b.local" ∉ (mapGet (addDNSEntry [("10.0.0.7", ["a.local"])] "10.0.0.7" "b.local")
        "10.0.0.7").getD [] ∧
    addDNSEntry [] "10.0.0.7" "b.local" = [("10.0.0.7", ["b.local"])] := by
  refine ⟨?_, ?_, ?_⟩ <;> decide

/--
Claim C4 counterexample. The claim says `sendDNSResponse` dispatches on the
big-endian 16-bit value at offsets `questionEnd - 4`, `questionEnd - 3`
of the DNS payload (the last four bytes of the question section).  On the
concrete query `dnsPktC4` — whose question section ends at payload offset
19 while the payload is 23 bytes long — the question-section read yields
QTYPE 1 (A, which per the claim must build a one-answer response), but
the code reads offsets `dnsLength - 4`, `dnsLength - 3`, obtains 28, and
builds the *empty-answer* response (ANCOUNT bytes `00 00`).
-/
theorem qtypeDispatch_cex :
    dnsQuestionEndQType (dnsPktC4.drop 28) 23 = 1 ∧
    dnsDispatchQType (dnsPktC4.drop 28) 23 = 28 ∧
    dnsDispatchQType (dnsPktC4.drop 28) 23 ≠ dnsQuestionEndQType (dnsPktC4.drop 28) 23 ∧
    (sendDNSResponse dnsPktC4 [10, 0, 0, 7]).map (fun r => (bget r 34, bget r 35))
      = some (0, 0) := by
  refine ⟨?_, ?_, ?_, ?_⟩ <;> decide

/--
Claim C4, amended. The QTYPE `sendDNSResponse` dispatches on is the
big-endian 16-bit integer read from the *last four bytes of the DNS
payload* (offsets `dnsLength - 4` and `dnsLength - 3`): under the parsing
guards it responds exactly when that value is 1, 28 or 65, and this
coincides with the big-endian read at `questionEnd - 4`, `questionEnd - 3`
exactly when the question section ends at the payload end
(`questionEnd = dnsLength`).
-/
theorem sendDNSResponse_dispatch (p resolvedIP : List Nat)
    (hbound : ipHeaderLen p + 8 + 12 ≤ p.length)
    (hproto : bget p 9 = 17)
    (hsmall : p.length < 18446744073709551616) :
    ((sendDNSResponse p resolvedIP = none) ↔
      (dnsDispatchQType (p.drop (ipHeaderLen p + 8)) (p.length - ipHeaderLen p - 8) ≠ 1 ∧
       dnsDispatchQType (p.drop (ipHeaderLen p + 8)) (p.length - ipHeaderLen p - 8) ≠ 28 ∧
       dnsDispatchQType (p.drop (ipHeaderLen p + 8)) (p.length - ipHeaderLen p - 8) ≠ 65)) ∧
    (dnsQuestionEnd (p.drop (ipHeaderLen p + 8)) (p.length - ipHeaderLen p - 8)
        = p.length - ipHeaderLen p - 8 →
      dnsDispatchQType (p.drop (ipHeaderLen p + 8)) (p.length - ipHeaderLen p - 8)
        = dnsQuestionEndQType (p.drop (ipHeaderLen p + 8)) (p.length - ipHeaderLen p - 8)) := by
  have hw : (p.length + 18446744073709551616 - ipHeaderLen p - 8) % 18446744073709551616
      = p.length - ipHeaderLen p - 8 := by omega
  constructor
  · have h20 : ¬ p.length < 20 := by
      have : ipHeaderLen p + 8 + 12 ≥ 20 := by omega
      omega
    have h17 : ¬ bget p 9 ≠ 17 := by simp [hproto]
    have h12 : ¬ p.length - ipHeaderLen p - 8 < 12 := by omega
    simp only [sendDNSResponse, hw, if_neg h20, if_neg h17, if_neg h12]
    by_cases hA :
        dnsDispatchQType (p.drop (ipHeaderLen p + 8)) (p.length - ipHeaderLen p - 8) = 28 ∨
        dnsDispatchQType (p.drop (ipHeaderLen p + 8)) (p.length - ipHeaderLen p - 8) = 65
    · rw [if_pos hA]
      rcases hA with h | h <;> simp [h]
    · rw [if_neg hA]
      rw [not_or] at hA
      by_cases h1 :
          dnsDispatchQType (p.drop (ipHeaderLen p + 8)) (p.length - ipHeaderLen p - 8) ≠ 1
      · rw [if_pos h1]
        simp [h1, hA.1, hA.2]
      · rw [if_neg h1]
        rw [not_not] at h1
        simp [h1]
  · intro hq
    unfold dnsQuestionEndQType dnsDispatchQType
    rw [hq]

/-- Claim C4 witness: On a well-formed A query whose question section is the
final structure of the datagram (`dnsPktA`), the dispatch theorem applies
and, since the dispatched QTYPE is 1, the response is not `none`. -/
theorem sendDNSResponse_dispatch_witness :
    sendDNSResponse dnsPktA [10, 0, 0, 7] ≠ none := by
  intro hnone
  have h := (sendDNSResponse_dispatch dnsPktA [10, 0, 0, 7]
    (by decide) (by decide) (by decide)).1.mp hnone
  exact h.1 (by decide)

/--
Claim C5. For every packet handled by `writePacket` that is an ICMP type-8
echo request whose IPv4 source address is in the known-IP set, with
header and total lengths consistent with the buffer, the engine delivers
via the outbound callback — and not the write queue — a packet `r` such
that: the ICMP type byte is 0; the source and destination IPv4 addresses
are swapped relative to the input; the stored ICMP checksum equals the
checksum recomputed over the `totalLen - headerLen` ICMP bytes of `r`
with its checksum field zeroed; and the stored IPv4 header checksum
equals the checksum recomputed over the `headerLen` header bytes of `r`
with its checksum field zeroed.
-/
theorem writePacket_echoReply (known p : List Nat)
    (hihl : 5 ≤ bget p 0 % 16)
    (hproto : bget p 9 = 1)
    (htype : bget p (ipHeaderLen p) = 8)
    (hknown : le32 p 12 ∈ known)
    (hicmp : ipHeaderLen p + 4 ≤ ipTotalLen p)
    (hlen : ipTotalLen p ≤ p.length) :
    ∃ r, writePacket known p = [Effect.outbound r] ∧
      r.length = p.length ∧
      bget r (ipHeaderLen p) = 0 ∧
      (∀ k, k < 4 → bget r (12 + k) = bget p (16 + k) ∧ bget r (16 + k) = bget p (12 + k)) ∧
      bget r (ipHeaderLen p + 2) + 256 * bget r (ipHeaderLen p + 3)
        = computeIPChecksum
            (store16LE (slice r (ipHeaderLen p) (ipTotalLen p - ipHeaderLen p)) 2 0) ∧
      bget r 10 + 256 * bget r 11
        = computeIPChecksum (store16LE (slice r 0 (ipHeaderLen p)) 10 0) := by
  have h20 : 20 ≤ ipHeaderLen p := by unfold ipHeaderLen; omega
  have hplen : ipHeaderLen p + 4 ≤ p.length := by omega
  set p1 := setByte p (ipHeaderLen p) 0 with hp1
  set p2 := store16LE p1 (ipHeaderLen p + 2) 0 with hp2
  set ck := computeIPChecksum (slice p2 (ipHeaderLen p) (ipTotalLen p - ipHeaderLen p))
    with hck
  set p3 := store16LE p2 (ipHeaderLen p + 2) ck with hp3
  set p4 := swapIPAddrs p3 with hp4
  set p5 := store16LE p4 10 0 with hp5
  set ck2 := computeIPChecksum (slice p5 0 (ipHeaderLen p)) with hck2
  set p6 := store16LE p5 10 ck2 with hp6
  have hl1 : p1.length = p.length := by rw [hp1]; simp [length_setByte]
  have hl2 : p2.length = p.length := by rw [hp2]; simp [length_store16LE, hl1]
  have hl3 : p3.length = p.length := by rw [hp3]; simp [length_store16LE, hl2]
  have hl4 : p4.length = p.length := by rw [hp4]; simp [length_swapIPAddrs, hl3]
  have hl5 : p5.length = p.length := by rw [hp5]; simp [length_store16LE, hl4]
  have hl6 : p6.length = p.length := by rw [hp6]; simp [length_store16LE, hl5]
  have h65 : ∀ j, j ≠ 10 → j ≠ 11 → bget p6 j = bget p5 j := by
    intro j hj1 hj2
    rw [hp6, bget_store16LE_ne _ _ _ _ (by omega) (by omega)]
  have h54 : ∀ j, j ≠ 10 → j ≠ 11 → bget p5 j = bget p4 j := by
    intro j hj1 hj2
    rw [hp5, bget_store16LE_ne _ _ _ _ (by omega) (by omega)]
  have h43 : ∀ j, j < 12 ∨ 19 < j → bget p4 j = bget p3 j := by
    intro j hj
    rw [hp4, bget_swapIPAddrs_ne _ _ hj]
  have h32 : ∀ j, j ≠ ipHeaderLen p + 2 → j ≠ ipHeaderLen p + 3 →
      bget p3 j = bget p2 j := by
    intro j hj1 hj2
    rw [hp3, bget_store16LE_ne _ _ _ _ (by omega) (by omega)]
  have h21 : ∀ j, j ≠ ipHeaderLen p + 2 → j ≠ ipHeaderLen p + 3 →
      bget p2 j = bget p1 j := by
    intro j hj1 hj2
    rw [hp2, bget_store16LE_ne _ _ _ _ (by omega) (by omega)]
  have h10 : ∀ j, j ≠ ipHeaderLen p → bget p1 j = bget p j := by
    intro j hj
    rw [hp1, bget_setByte_ne _ _ _ _ (by omega)]
  have hcross : ∀ j, 20 ≤ j → j ≠ ipHeaderLen p + 2 → j ≠ ipHeaderLen p + 3 →
      bget p6 j = bget p2 j := by
    intro j h20j hj2 hj3
    rw [h65 _ (by omega) (by omega), h54 _ (by omega) (by omega),
      h43 _ (Or.inr (by omega)), h32 _ hj2 hj3]
  have hreply : icmpEchoReply p (ipHeaderLen p) (ipTotalLen p) = p6 := rfl
  refine ⟨p6, ?_, hl6, ?_, ?_, ?_, ?_⟩
  · -- the outbound branch is taken
    have hg1 : ¬ p.length < ipHeaderLen p := by omega
    have hg2 : ¬ bget p 9 ≠ 1 := by simp [hproto]
    have hg3 : ¬ (ipTotalLen p < ipHeaderLen p ∨ p.length < ipTotalLen p) := by omega
    have hg4 : ¬ bget p (ipHeaderLen p) ≠ 8 := by simp [htype]
    simp only [writePacket, if_neg hg1, if_neg hg2, if_neg hg3, if_neg hg4, if_pos hknown]
    rw [hreply]
  · -- ICMP type byte is 0
    rw [h65 _ (by omega) (by omega), h54 _ (by omega) (by omega),
      h43 _ (Or.inr (by omega)), h32 _ (by omega) (by omega), h21 _ (by omega) (by omega),
      hp1, bget_setByte_eq _ _ _ (by omega)]
  · -- addresses swapped
    intro k hk
    constructor
    · rw [h65 _ (by omega) (by omega), h54 _ (by omega) (by omega), hp4,
        bget_swapIPAddrs_src p3 k hk (by omega),
        h32 _ (by omega) (by omega), h21 _ (by omega) (by omega), h10 _ (by omega)]
    · rw [h65 _ (by omega) (by omega), h54 _ (by omega) (by omega), hp4,
        bget_swapIPAddrs_dst p3 k hk (by omega),
        h32 _ (by omega) (by omega), h21 _ (by omega) (by omega), h10 _ (by omega)]
  · -- ICMP checksum of the emitted packet
    have hlo : bget p6 (ipHeaderLen p + 2) = ck % 256 := by
      rw [h65 _ (by omega) (by omega), h54 _ (by omega) (by omega),
        h43 _ (Or.inr (by omega)), hp3, bget_store16LE_lo _ _ _ (by omega)]
    have hhi : bget p6 (ipHeaderLen p + 3) = ck / 256 % 256 := by
      rw [h65 _ (by omega) (by omega), h54 _ (by omega) (by omega),
        h43 _ (Or.inr (by omega)), hp3,
        show ipHeaderLen p + 3 = ipHeaderLen p + 2 + 1 from by omega,
        bget_store16LE_hi _ _ _ (by omega)]
    have hck_lt : ck < 65536 := by rw [hck]; exact computeIPChecksum_lt _
    have hslice :
        store16LE (slice p6 (ipHeaderLen p) (ipTotalLen p - ipHeaderLen p)) 2 0
          = slice p2 (ipHeaderLen p) (ipTotalLen p - ipHeaderLen p) := by
      apply ext_bget
      · rw [length_store16LE, length_slice, length_slice, hl6, hl2]
      · intro i hilt
        rw [length_store16LE, length_slice, hl6] at hilt
        have hin : i < ipTotalLen p - ipHeaderLen p := by omega
        by_cases hi2 : i = 2
        · subst hi2
          rw [bget_store16LE_lo _ _ _ (by rw [length_slice, hl6]; omega),
            bget_slice _ _ _ _ hin, hp2, bget_store16LE_lo _ _ _ (by omega)]
        · by_cases hi3 : i = 3
          · subst hi3
            rw [show (3 : Nat) = 2 + 1 from rfl,
              bget_store16LE_hi _ _ _ (by rw [length_slice, hl6]; omega),
              bget_slice _ _ _ _ hin, hp2,
              show ipHeaderLen p + (2 + 1) = ipHeaderLen p + 2 + 1 from by omega,
              bget_store16LE_hi _ _ _ (by omega)]
          · rw [bget_store16LE_ne _ _ _ _ (by omega) (by omega),
              bget_slice _ _ _ _ hin, bget_slice _ _ _ _ hin,
              hcross _ (by omega) (by omega) (by omega)]
    rw [hlo, hhi, hslice, ← hck]
    omega
  · -- IPv4 header checksum of the emitted packet
    have hlo : bget p6 10 = ck2 % 256 := by
      rw [hp6, bget_store16LE_lo _ _ _ (by omega)]
    have hhi : bget p6 11 = ck2 / 256 % 256 := by
      rw [hp6, show (11 : Nat) = 10 + 1 from rfl, bget_store16LE_hi _ _ _ (by omega)]
    have hck2_lt : ck2 < 65536 := by rw [hck2]; exact computeIPChecksum_lt _
    have hslice : store16LE (slice p6 0 (ipHeaderLen p)) 10 0
        = slice p5 0 (ipHeaderLen p) := by
      apply ext_bget
      · rw [length_store16LE, length_slice, length_slice, hl6, hl5]
      · intro i hilt
        rw [length_store16LE, length_slice, hl6] at hilt
        have hin : i < ipHeaderLen p := by omega
        by_cases hi10 : i = 10
        · subst hi10
          rw [bget_store16LE_lo _ _ _ (by rw [length_slice, hl6]; omega),
            bget_slice _ _ _ _ hin, hp5]
          simp only [Nat.zero_add]
          rw [bget_store16LE_lo _ _ _ (by omega)]
        · by_cases hi11 : i = 11
          · subst hi11
            rw [show (11 : Nat) = 10 + 1 from rfl,
              bget_store16LE_hi _ _ _ (by rw [length_slice, hl6]; omega),
              bget_slice _ _ _ _ (by omega : 10 + 1 < ipHeaderLen p), hp5]
            simp only [Nat.zero_add]
            rw [bget_store16LE_hi _ _ _ (by omega)]
          · rw [bget_store16LE_ne _ _ _ _ (by omega) (by omega),
              bget_slice _ _ _ _ hin, bget_slice _ _ _ _ hin]
            exact h65 _ (by omega) (by omega)
    rw [hlo, hhi, hslice, ← hck2]
    omega

/-- Claim C5 witness: The synthesis theorem at the concrete echo request
`echoReqPkt` from known source `10.0.0.1`. -/
theorem writePacket_echoReply_witness :
    5 ≤ bget echoReqPkt 0 % 16 ∧ bget echoReqPkt 9 = 1 ∧
    bget echoReqPkt (ipHeaderLen echoReqPkt) = 8 ∧
    le32 echoReqPkt 12 ∈ [le32 echoReqPkt 12] ∧
    ipHeaderLen echoReqPkt + 4 ≤ ipTotalLen echoReqPkt ∧
    ipTotalLen echoReqPkt ≤ echoReqPkt.length ∧
    (∃ r, writePacket [le32 echoReqPkt 12] echoReqPkt = [Effect.outbound r] ∧
      r.length = echoReqPkt.length ∧
      bget r (ipHeaderLen echoReqPkt) = 0 ∧
      (∀ k, k < 4 → bget r (12 + k) = bget echoReqPkt (16 + k) ∧
        bget r (16 + k) = bget echoReqPkt (12 + k)) ∧
      bget r (ipHeaderLen echoReqPkt + 2) + 256 * bget r (ipHeaderLen echoReqPkt + 3)
        = computeIPChecksum (store16LE
            (slice r (ipHeaderLen echoReqPkt)
              (ipTotalLen echoReqPkt - ipHeaderLen echoReqPkt)) 2 0) ∧
      bget r 10 + 256 * bget r 11
        = computeIPChecksum (store16LE (slice r 0 (ipHeaderLen echoReqPkt)) 10 0)) :=
  ⟨by decide, by decide, by decide, by decide, by decide, by decide,
    writePacket_echoReply [le32 echoReqPkt 12] echoReqPkt
      (by decide) (by decide) (by decide) (by decide) (by decide) (by decide)⟩

end HyperSpace
